import Mathlib

/-!
Shallow embedding of the experiment-lifecycle and provenance-manifest core of
the `data-science-sandbox` VS Code extension.

Sources embedded here:
* `src/src/extension.ts` — the `immutable.createSandbox` and
  `immutable.finalizeExperiment` commands, `hashDirectory`, `calculateFileHash`.
* `src/src/db.ts` — `DatabaseManager` (SQLite registry of experiment records).
* `src/src/dashboard.ts` — the `openFolder` and `verify` message handlers.

Modelling conventions: file bytes are `List Nat`; the SHA-256 digest is an
abstract parameter `h : Content → Digest` (instantiated with the identity in
concrete evaluations); times are `Nat` (DB `CURRENT_TIMESTAMP`) or `String`
(ISO strings written into the manifest); a directory listing is an
`Option (List (String × FsNode))` — `none` models a missing directory
(`fs.existsSync` false), and the list order models the OS enumeration order
returned by `fs.readdir`.  Success or failure of the external `pip`, `gpg`,
`openssl`/`curl` processes is modelled by boolean flags of a `FinalizeEnv`.
The transient `manifest.tsq` query file (created and removed inside the
timestamping step) is not modelled.
-/

namespace Sandbox

abbrev Content := List Nat

abbrev Digest := List Nat

/-- A node of the filesystem tree as seen through `fs.readdir` / `fs.stat`:
a regular file with its byte content, a directory with its named entries, or
a symlink. -/
inductive FsNode where
  | file (content : Content)
  | dir (entries : List (String × FsNode))
  | symlink (target : String)

/-- Translation of the hidden-file test `file.startsWith('.')`
(src/src/extension.ts:337).  Since `"."` is a single character, starting with
it is exactly having `'.'` as first character; this rendering over
`String.data` is used because it evaluates inside the kernel. -/
def isHidden (name : String) : Bool :=
  match name.data with
  | c :: _ => c = '.'
  | [] => false

/-- Translation of `calculateFileHash` (src/src/extension.ts:348-356): stream
the file's bytes through SHA-256 (the abstract `h`) and return the digest. -/
def calculateFileHash (h : Content → Digest) (c : Content) : Digest := h c

/-- Translation of `hashDirectory` (src/src/extension.ts:330-346).  A missing
directory yields the empty mapping; otherwise the entries returned by
`fs.readdir` are scanned in order: names starting with `"."` are skipped,
and only entries whose `fs.stat` reports a regular file are hashed.  Note the
source does NOT recurse into subdirectories. -/
def hashDirectory (h : Content → Digest) : Option (List (String × FsNode)) → List (String × Digest)
  | none => []
  | some entries =>
      entries.foldl
        (fun acc e =>
          if isHidden e.1 then acc
          else
            match e.2 with
            | FsNode.file c => acc ++ [(e.1, calculateFileHash h c)]
            | _ => acc)
        []

/-- One step of `hashDirectory` as an `Option`-valued map, used to rewrite the
fold as a `filterMap` in proofs. -/
def hashEntry (h : Content → Digest) (e : String × FsNode) : Option (String × Digest) :=
  if isHidden e.1 then none
  else
    match e.2 with
    | FsNode.file c => some (e.1, calculateFileHash h c)
    | _ => none

/-- Association-list lookup, reading a digest mapping at a path key. -/
def lookupD : List (String × Digest) → String → Option Digest
  | [], _ => none
  | (k, v) :: rest, key => if key = k then some v else lookupD rest key

/-- Lifecycle states of the registry state machine
(src/src/db.ts: `status TEXT CHECK(status IN ('CREATED','IN_PROGRESS','COMPLETED'))`). -/
inductive Status where
  | CREATED
  | IN_PROGRESS
  | COMPLETED
  deriving DecidableEq, Repr

/-- Translation of the `experiments` table row / `ExperimentRecord` interface
(src/src/db.ts:6-15 and the `CREATE TABLE` statement). -/
structure ExperimentRecord where
  id : String
  name : String
  path : String
  status : Status
  created_at : Nat
  last_opened_at : Option Nat
  finalized_at : Option Nat
  manifest_path : Option String
  deriving DecidableEq, Repr

namespace DatabaseManager

/-- Translation of `DatabaseManager.insertExperiment` (src/src/db.ts:64-73):
`INSERT INTO experiments (id, name, path, status) VALUES (?, ?, ?, 'CREATED')`
with `created_at DEFAULT CURRENT_TIMESTAMP` (the `now` argument). -/
def insertExperiment (db : List ExperimentRecord) (id name path : String) (now : Nat) :
    List ExperimentRecord :=
  db ++ [{ id := id, name := name, path := path, status := Status.CREATED,
           created_at := now, last_opened_at := none, finalized_at := none,
           manifest_path := none }]

/-- Translation of `DatabaseManager.updateExperimentStatus` (src/src/db.ts:75-90):
`UPDATE experiments SET status = ? WHERE path = ?`, additionally setting
`finalized_at = CURRENT_TIMESTAMP` when the new status is `COMPLETED`. -/
def updateExperimentStatus (db : List ExperimentRecord) (path : String) (status : Status)
    (now : Nat) : List ExperimentRecord :=
  db.map fun r =>
    if r.path == path then
      if status = Status.COMPLETED then
        { r with status := status, finalized_at := some now }
      else
        { r with status := status }
    else r

/-- Translation of `DatabaseManager.updateLastOpened` (src/src/db.ts:92-103):
`UPDATE experiments SET last_opened_at = ? WHERE path = ?`. -/
def updateLastOpened (db : List ExperimentRecord) (path : String) (now : Nat) :
    List ExperimentRecord :=
  db.map fun r =>
    if r.path == path then { r with last_opened_at := some now } else r

/-- Translation of `DatabaseManager.finalizeExperiment` (src/src/db.ts:105-121):
`UPDATE experiments SET status = 'COMPLETED', finalized_at = CURRENT_TIMESTAMP,
manifest_path = ? WHERE path = ?` — note: unconditional, no status guard. -/
def finalizeExperiment (db : List ExperimentRecord) (path manifestPath : String) (now : Nat) :
    List ExperimentRecord :=
  db.map fun r =>
    if r.path == path then
      { r with status := Status.COMPLETED, finalized_at := some now,
               manifest_path := some manifestPath }
    else r

/-- Translation of `DatabaseManager.getExperimentByPath` (src/src/db.ts:134-143):
`SELECT * FROM experiments WHERE path = ?` returning the first matching row. -/
def getExperimentByPath (db : List ExperimentRecord) (path : String) :
    Option ExperimentRecord :=
  db.find? fun r => r.path == path

/-- Translation of `DatabaseManager.deleteExperiment` (src/src/db.ts:145-154):
`DELETE FROM experiments WHERE path = ?`. -/
def deleteExperiment (db : List ExperimentRecord) (path : String) : List ExperimentRecord :=
  db.filter fun r => !(r.path == path)

end DatabaseManager

/-- Translation of the manifest object literal built by
`immutable.finalizeExperiment` (src/src/extension.ts:170-176). -/
structure Manifest where
  timestamp : String
  input_hashes : List (String × Digest)
  output_hashes : List (String × Digest)
  system_info : String
  pip_freeze : String
  deriving DecidableEq, Repr

/-- A JSON value as needed for the manifest's fields: a plain string or a
path-to-digest mapping. -/
inductive JsonValue where
  | str (s : String)
  | hashes (m : List (String × Digest))
  deriving DecidableEq, Repr

/-- The field list of the serialized manifest, in the order the object literal
at src/src/extension.ts:170-176 is written by `fs.writeJson`. -/
def manifestFields (m : Manifest) : List (String × JsonValue) :=
  [("timestamp", JsonValue.str m.timestamp),
   ("input_hashes", JsonValue.hashes m.input_hashes),
   ("output_hashes", JsonValue.hashes m.output_hashes),
   ("system_info", JsonValue.str m.system_info),
   ("pip_freeze", JsonValue.str m.pip_freeze)]

/-- On-disk state of one experiment root as touched by finalize and verify:
the `input/` and `output/` listings, the artifacts `manifest.json`,
`manifest.json.asc` (detached signature, modelled as binding the exact
manifest it signs), `manifest.tsr` (timestamp token, likewise), and the
`.provenance/code_snapshot` directory (modelled by the list of copied code
file basenames). -/
structure Disk where
  inputDir : Option (List (String × FsNode))
  outputDir : Option (List (String × FsNode))
  manifestFile : Option Manifest
  signatureFile : Option Manifest
  tsrFile : Option Manifest
  codeSnapshot : Option (List String)

/-- Outcomes of the external processes invoked by
`immutable.finalizeExperiment`, plus the wall-clock readings it takes:
whether `pip freeze` succeeds (and its stdout or error message), the code
files found for the snapshot, whether GPG signing succeeds, whether the
`openssl ts`/`curl` timestamping succeeds, the ISO time written into the
manifest, and the DB `CURRENT_TIMESTAMP`. -/
structure FinalizeEnv where
  pipOk : Bool
  pipOut : String
  pipErrMsg : String
  codeFiles : List String
  signOk : Bool
  tsOk : Bool
  nowIso : String
  dbNow : Nat

/-- The observable result of running the finalize command: the registry after
the command, the disk after the command, whether the outer catch reported a
fatal error, and whether the non-fatal timestamping warning was shown. -/
structure FinalizeResult where
  db : List ExperimentRecord
  disk : Disk
  fatalError : Bool
  warning : Bool

/-- The manifest assembled at src/src/extension.ts:170-176: current ISO time,
the two digest mappings, the constant `system_info` string, and `pip freeze`
output (or the error string built at src/src/extension.ts:154). -/
def buildManifest (h : Content → Digest) (env : FinalizeEnv) (disk : Disk) : Manifest :=
  { timestamp := env.nowIso,
    input_hashes := hashDirectory h disk.inputDir,
    output_hashes := hashDirectory h disk.outputDir,
    system_info := "Docker Image ID would be here (requires docker socket access or env var)",
    pip_freeze := if env.pipOk then env.pipOut
                  else "Error capturing pip freeze: " ++ env.pipErrMsg }

/-- Translation of the `immutable.finalizeExperiment` command
(src/src/extension.ts:126-218), sequencing: hash `input/` and `output/`,
capture pip freeze, copy the code snapshot, write `manifest.json`, GPG-sign
(failure rethrown, caught by the outer catch: fatal, DB untouched),
timestamp (failure caught locally: warning only), then
`db.finalizeExperiment(rootPath, manifestPath)`.  The command never consults
the experiment's current status. -/
def finalizeExperimentCmd (h : Content → Digest) (env : FinalizeEnv)
    (db : List ExperimentRecord) (rootPath : String) (disk : Disk) : FinalizeResult :=
  let m := buildManifest h env disk
  let disk1 := { disk with codeSnapshot := some env.codeFiles }
  let disk2 := { disk1 with manifestFile := some m }
  if env.signOk = false then
    { db := db, disk := disk2, fatalError := true, warning := false }
  else
    let disk3 := { disk2 with signatureFile := some m }
    if env.tsOk then
      { db := DatabaseManager.finalizeExperiment db rootPath (rootPath ++ "/manifest.json") env.dbNow,
        disk := { disk3 with tsrFile := some m }, fatalError := false, warning := false }
    else
      { db := DatabaseManager.finalizeExperiment db rootPath (rootPath ++ "/manifest.json") env.dbNow,
        disk := disk3, fatalError := false, warning := true }

/-- The filesystem evidence consulted by the `immutable.createSandbox` safety
check (src/src/extension.ts:57): whether `join(path, 'output')` and
`join(path, '.devcontainer')` exist. -/
structure Location where
  hasOutput : Bool
  hasDevcontainer : Bool
  deriving DecidableEq, Repr

/-- Outcome of the creation command: rejected as a duplicate location (either
safety check fired) or created. -/
inductive CreateOutcome where
  | duplicateLocation
  | created
  deriving DecidableEq, Repr

/-- The observable result of `immutable.createSandbox`: outcome, registry
after the command, and whether any filesystem side effect (scaffolding,
input copy, git init) was performed. -/
structure CreateResult where
  outcome : CreateOutcome
  db : List ExperimentRecord
  sideEffects : Bool

/-- Translation of the `immutable.createSandbox` command
(src/src/extension.ts:39-124): safety check A (filesystem evidence of prior
scaffolding) then safety check B (`db.getExperimentByPath`); both reject
before any scaffolding or insertion; otherwise scaffold and
`db.insertExperiment`. -/
def createSandbox (db : List ExperimentRecord) (id name projectPath : String)
    (loc : Location) (now : Nat) : CreateResult :=
  if loc.hasOutput || loc.hasDevcontainer then
    { outcome := CreateOutcome.duplicateLocation, db := db, sideEffects := false }
  else
    match DatabaseManager.getExperimentByPath db projectPath with
    | some _ => { outcome := CreateOutcome.duplicateLocation, db := db, sideEffects := false }
    | none => { outcome := CreateOutcome.created,
                db := DatabaseManager.insertExperiment db id name projectPath now,
                sideEffects := true }

/-- Translation of the dashboard's `openFolder` message handler
(src/src/dashboard.ts:44-60): look the experiment up by path; if found and
not `COMPLETED`, set status `IN_PROGRESS`; in every case update
`last_opened_at`. -/
def openFolderCmd (db : List ExperimentRecord) (path : String) (statusNow lastNow : Nat) :
    List ExperimentRecord :=
  match DatabaseManager.getExperimentByPath db path with
  | some e =>
      if e.status = Status.COMPLETED then
        DatabaseManager.updateLastOpened db path lastNow
      else
        DatabaseManager.updateLastOpened
          (DatabaseManager.updateExperimentStatus db path Status.IN_PROGRESS statusNow)
          path lastNow
  | none => DatabaseManager.updateLastOpened db path lastNow

/-- Modelled from the spec: the verification outcomes of §4.5 (the
`immutable.verifyIntegrity` command is dispatched at src/src/dashboard.ts:38-40
but has no implementation under src/). -/
inductive VerifyResult where
  | Valid
  | ContentMismatch (paths : List String)
  | SignatureInvalid
  | TimestampInvalid
  | TimestampAbsent
  deriving DecidableEq, Repr

/-- Modelled from the spec: §4.5's field-by-field comparison of a stored
digest mapping against the recomputed one — the paths whose digests diverge
(stored entry absent or different in the current mapping, or current entry
absent from the stored mapping). -/
def mismatched (stored current : List (String × Digest)) : List String :=
  (stored.filter fun kv => decide (lookupD current kv.1 ≠ some kv.2)).map Prod.fst
    ++ (current.filter fun kv => (lookupD stored kv.1).isNone).map Prod.fst

/-- Modelled from the spec: the §4.5 Integrity Verifier, absent from src/.
Recompute input and output digests from the current disk state and compare
against the stored manifest; on divergence report `ContentMismatch` with
exactly the differing paths; else check the detached signature binds the
manifest's bytes; else check the timestamp token, if present, binds the same
bytes. -/
def verifyIntegrity (h : Content → Digest) (m : Manifest) (disk : Disk) : VerifyResult :=
  let diffs := mismatched m.input_hashes (hashDirectory h disk.inputDir)
      ++ mismatched m.output_hashes (hashDirectory h disk.outputDir)
  if diffs = [] then
    if disk.signatureFile = some m then
      match disk.tsrFile with
      | none => VerifyResult.TimestampAbsent
      | some t => if t = m then VerifyResult.Valid else VerifyResult.TimestampInvalid
    else VerifyResult.SignatureInvalid
  else VerifyResult.ContentMismatch diffs

/-- Modelled from the spec: the dashboard-level verify operation is a pure
read-side operation (§4.5 "Verification never mutates registry state"); it
returns the verification result and the registry exactly as it was. -/
def verifyCmd (h : Content → Digest) (db : List ExperimentRecord) (m : Manifest)
    (disk : Disk) : VerifyResult × List ExperimentRecord :=
  (verifyIntegrity h m disk, db)

/-- Follows the claim's words for C3: the directory tree rooted at the given
listing contains, at some depth along the given non-hidden path, a regular
file with the given content. -/
inductive HasDeepFile : List (String × FsNode) → List String → Content → Prop where
  | here {es : List (String × FsNode)} {name : String} {c : Content} :
      (name, FsNode.file c) ∈ es → isHidden name = false →
      HasDeepFile es [name] c
  | there {es : List (String × FsNode)} {name : String} {sub : List (String × FsNode)}
      {p : List String} {c : Content} :
      (name, FsNode.dir sub) ∈ es → isHidden name = false →
      HasDeepFile sub p c → HasDeepFile es (name :: p) c

/-- A disk with nothing on it, used as a base for concrete evaluations. -/
def emptyDisk : Disk :=
  { inputDir := none, outputDir := none, manifestFile := none, signatureFile := none,
    tsrFile := none, codeSnapshot := none }

/-- Concrete COMPLETED registry record at "/exp1", as left by an earlier
successful finalize. -/
def c1Record : ExperimentRecord :=
  { id := "e1", name := "exp1", path := "/exp1", status := Status.COMPLETED,
    created_at := 0, last_opened_at := some 1, finalized_at := some 1,
    manifest_path := some "/exp1/manifest.json" }

/-- The manifest written by that earlier finalize of "/exp1". -/
def c1Manifest : Manifest :=
  { timestamp := "2026-01-01T00:00:00.000Z", input_hashes := [("a.csv", [49])],
    output_hashes := [],
    system_info := "Docker Image ID would be here (requires docker socket access or env var)",
    pip_freeze := "pf" }

/-- The disk of "/exp1" after that earlier finalize: manifest, signature and
timestamp token all present. -/
def c1Disk : Disk :=
  { inputDir := some [("a.csv", FsNode.file [49])], outputDir := some [],
    manifestFile := some c1Manifest, signatureFile := some c1Manifest,
    tsrFile := some c1Manifest, codeSnapshot := some [] }

/-- An environment in which every external step of a re-run finalize
succeeds, at a later wall-clock time. -/
def c1Env : FinalizeEnv :=
  { pipOk := true, pipOut := "pf", pipErrMsg := "", codeFiles := [], signOk := true,
    tsOk := true, nowIso := "2026-02-02T00:00:00.000Z", dbNow := 7 }

/-- Concrete COMPLETED registry record at "/exp2" with `finalized_at = 2`. -/
def c2Record : ExperimentRecord :=
  { id := "e2", name := "exp2", path := "/exp2", status := Status.COMPLETED,
    created_at := 0, last_opened_at := some 2, finalized_at := some 2,
    manifest_path := some "/exp2/manifest.json" }

/-- A finalize environment for "/exp2" whose DB clock reads 9. -/
def c2Env : FinalizeEnv :=
  { pipOk := true, pipOut := "", pipErrMsg := "", codeFiles := [], signOk := true,
    tsOk := false, nowIso := "2026-03-03T00:00:00.000Z", dbNow := 9 }

/-- The disk of "/exp2" (contents irrelevant to the registry mutation). -/
def c2Disk : Disk := { emptyDisk with inputDir := some [], outputDir := some [] }

/-- An environment whose GPG signing step fails. -/
def w5Env : FinalizeEnv :=
  { pipOk := true, pipOut := "numpy==1.26.0", pipErrMsg := "", codeFiles := ["run.py"],
    signOk := false, tsOk := true, nowIso := "2026-04-04T00:00:00.000Z", dbNow := 11 }

/-- A disk holding one input file, used for the signing-failure evaluation. -/
def w5Disk : Disk :=
  { emptyDisk with inputDir := some [("a.csv", FsNode.file [49])], outputDir := some [] }

/-- An IN_PROGRESS registry record at "/exp6". -/
def w6Record : ExperimentRecord :=
  { id := "e6", name := "exp6", path := "/exp6", status := Status.IN_PROGRESS,
    created_at := 0, last_opened_at := some 1, finalized_at := none, manifest_path := none }

/-- An environment in which signing succeeds but timestamping fails. -/
def w6Env : FinalizeEnv :=
  { pipOk := true, pipOut := "pandas==2.1.0", pipErrMsg := "", codeFiles := ["run.py"],
    signOk := true, tsOk := false, nowIso := "2026-05-05T00:00:00.000Z", dbNow := 13 }

/-- The disk of "/exp6" before finalize: no artifacts yet. -/
def w6Disk : Disk :=
  { emptyDisk with inputDir := some [("a.csv", FsNode.file [49])], outputDir := some [] }

/-- A CREATED registry record at "/exp1", for the duplicate-creation check. -/
def w7Record : ExperimentRecord :=
  { id := "e7", name := "exp1", path := "/exp1", status := Status.CREATED,
    created_at := 0, last_opened_at := none, finalized_at := none, manifest_path := none }

/-- The manifest of a finalized experiment whose input set is the single file
"a.csv" with content byte 49. -/
def w9Manifest : Manifest :=
  { timestamp := "2026-06-06T00:00:00.000Z", input_hashes := [("a.csv", [49])],
    output_hashes := [], system_info := "s", pip_freeze := "pf" }

/-- The disk of that experiment after "a.csv" was modified from byte 49 to
byte 50. -/
def w9Disk : Disk :=
  { emptyDisk with inputDir := some [("a.csv", FsNode.file [50])], outputDir := some [] }

/-- The manifest of a finalized experiment whose input directory holds only
the subdirectory "sub" (with a nested file "sub/data.csv"): the non-recursive
hasher gives it empty digest mappings. -/
def w9nManifest : Manifest :=
  { timestamp := "2026-07-07T00:00:00.000Z", input_hashes := [], output_hashes := [],
    system_info := "s", pip_freeze := "pf" }

/-- The disk of that experiment after the nested file "sub/data.csv" was
modified from byte 49 to byte 50; signature and timestamp token still bind
the stored manifest. -/
def w9nDisk : Disk :=
  { inputDir := some [("sub", FsNode.dir [("data.csv", FsNode.file [50])])],
    outputDir := some [], manifestFile := some w9nManifest,
    signatureFile := some w9nManifest, tsrFile := some w9nManifest,
    codeSnapshot := some [] }

/-- A concrete manifest used to inspect the serialized field names. -/
def w8Manifest : Manifest :=
  { timestamp := "t", input_hashes := [], output_hashes := [], system_info := "s",
    pip_freeze := "p" }

/-- A CREATED registry record at "/exp10", for the open-from-dashboard check. -/
def w10Record : ExperimentRecord :=
  { id := "e10", name := "exp10", path := "/exp10", status := Status.CREATED,
    created_at := 0, last_opened_at := none, finalized_at := none, manifest_path := none }

/-! Helper lemmas: `hashDirectory` as a `filterMap`, the association-list
lookup theory, and the behaviour of `mismatched` on unchanged and
singly-modified digest mappings. -/

theorem foldl_hash (h : Content → Digest) (es : List (String × FsNode)) :
    ∀ acc : List (String × Digest),
      es.foldl
        (fun acc e =>
          if isHidden e.1 then acc
          else
            match e.2 with
            | FsNode.file c => acc ++ [(e.1, calculateFileHash h c)]
            | _ => acc)
        acc
      = acc ++ es.filterMap (hashEntry h) := by
  induction es with
  | nil => intro acc; simp
  | cons e rest ih =>
    intro acc
    obtain ⟨n, node⟩ := e
    by_cases hh : isHidden n
    · simpa [hashEntry, hh] using ih acc
    · cases node with
      | file c =>
          simpa [hashEntry, hh, calculateFileHash, List.append_assoc]
            using ih (acc ++ [(n, calculateFileHash h c)])
      | dir sub => simpa [hashEntry, hh] using ih acc
      | symlink t => simpa [hashEntry, hh] using ih acc

theorem hashDirectory_some (h : Content → Digest) (es : List (String × FsNode)) :
    hashDirectory h (some es) = es.filterMap (hashEntry h) := by
  simpa [hashDirectory] using foldl_hash h es []

theorem hashEntry_file (h : Content → Digest) (n : String) (c : Content)
    (hn : isHidden n = false) :
    hashEntry h (n, FsNode.file c) = some (n, h c) := by
  simp [hashEntry, hn, calculateFileHash]

theorem hashEntry_fst (h : Content → Digest) (e : String × FsNode) (b : String × Digest)
    (hb : hashEntry h e = some b) : b.1 = e.1 := by
  obtain ⟨n, node⟩ := e
  by_cases hh : isHidden n
  · simp [hashEntry, hh] at hb
  · cases node with
    | file c =>
        simp [hashEntry, hh] at hb
        simp [← hb]
    | dir sub => simp [hashEntry, hh] at hb
    | symlink t => simp [hashEntry, hh] at hb

theorem hashKeys_sublist (h : Content → Digest) (es : List (String × FsNode)) :
    ((es.filterMap (hashEntry h)).map Prod.fst).Sublist (es.map Prod.fst) := by
  induction es with
  | nil => simp
  | cons e rest ih =>
    cases hb : hashEntry h e with
    | none =>
        rw [List.filterMap_cons_none hb]
        exact ih.cons e.1
    | some b =>
        rw [List.filterMap_cons_some hb, List.map_cons, List.map_cons,
            hashEntry_fst h e b hb]
        exact ih.cons₂ e.1

theorem lookupD_eq_none (l : List (String × Digest)) (k : String) :
    lookupD l k = none ↔ k ∉ l.map Prod.fst := by
  induction l with
  | nil => simp [lookupD]
  | cons kv rest ih =>
    obtain ⟨k', v⟩ := kv
    by_cases hk : k = k'
    · simp [lookupD, hk]
    · simp [lookupD, hk, ih]

theorem lookupD_of_mem (l : List (String × Digest)) (k : String) (v : Digest)
    (hnd : (l.map Prod.fst).Nodup) (hm : (k, v) ∈ l) :
    lookupD l k = some v := by
  induction l with
  | nil => cases hm
  | cons kv rest ih =>
    obtain ⟨k', v'⟩ := kv
    rw [List.map_cons, List.nodup_cons] at hnd
    rcases List.mem_cons.mp hm with he | hm'
    · obtain ⟨h1, h2⟩ := Prod.mk.injEq .. ▸ he
      subst h1; subst h2
      simp [lookupD]
    · have hk : k ≠ k' := fun he => hnd.1 (he ▸ List.mem_map.mpr ⟨(k, v), hm', rfl⟩)
      simp only [lookupD, if_neg hk]
      exact ih hnd.2 hm'

theorem lookupD_mem (l : List (String × Digest)) (k : String) (v : Digest)
    (hl : lookupD l k = some v) : (k, v) ∈ l := by
  induction l with
  | nil => simp [lookupD] at hl
  | cons kv rest ih =>
    obtain ⟨k', v'⟩ := kv
    by_cases hk : k = k'
    · subst hk
      simp [lookupD] at hl
      subst hl
      exact List.mem_cons_self _ _
    · simp only [lookupD, if_neg hk] at hl
      exact List.mem_cons_of_mem _ (ih hl)

theorem lookupD_append (l1 l2 : List (String × Digest)) (k : String) :
    lookupD (l1 ++ l2) k
      = match lookupD l1 k with
        | some v => some v
        | none => lookupD l2 k := by
  induction l1 with
  | nil => simp [lookupD]
  | cons kv rest ih =>
    obtain ⟨k', v'⟩ := kv
    by_cases hk : k = k'
    · simp [lookupD, hk]
    · simp [lookupD, hk, ih]

theorem lookupD_perm (l1 l2 : List (String × Digest)) (hp : l1.Perm l2)
    (hnd : (l1.map Prod.fst).Nodup) (k : String) :
    lookupD l1 k = lookupD l2 k := by
  cases hl : lookupD l1 k with
  | some v =>
    have hm2 : (k, v) ∈ l2 := hp.mem_iff.mp (lookupD_mem l1 k v hl)
    have hnd2 : (l2.map Prod.fst).Nodup := ((hp.map Prod.fst).nodup_iff).mp hnd
    exact (lookupD_of_mem l2 k v hnd2 hm2).symm
  | none =>
    have hk : k ∉ l1.map Prod.fst := (lookupD_eq_none l1 k).mp hl
    have hk2 : k ∉ l2.map Prod.fst := fun hmem => hk ((hp.map Prod.fst).mem_iff.mpr hmem)
    exact ((lookupD_eq_none l2 k).mpr hk2).symm

theorem mismatched_self (S : List (String × Digest)) (hnd : (S.map Prod.fst).Nodup) :
    mismatched S S = [] := by
  unfold mismatched
  have h1 : (S.filter fun kv => decide (lookupD S kv.1 ≠ some kv.2)) = [] := by
    apply List.filter_eq_nil_iff.mpr
    intro kv hkv
    have : lookupD S kv.1 = some kv.2 := lookupD_of_mem S kv.1 kv.2 hnd (by simpa using hkv)
    simp [this]
  have h2 : (S.filter fun kv => (lookupD S kv.1).isNone) = [] := by
    apply List.filter_eq_nil_iff.mpr
    intro kv hkv
    have : lookupD S kv.1 = some kv.2 := lookupD_of_mem S kv.1 kv.2 hnd (by simpa using hkv)
    simp [this]
  rw [h1, h2]
  simp

theorem mismatched_single (A B : List (String × Digest)) (p : String) (x y : Digest)
    (hnd : ((A ++ (p, x) :: B).map Prod.fst).Nodup) (hxy : x ≠ y) :
    mismatched (A ++ (p, x) :: B) (A ++ (p, y) :: B) = [p] := by
  rw [List.map_append, List.map_cons] at hnd
  rw [List.nodup_append] at hnd
  obtain ⟨hndA, hndpB, hdisj⟩ := hnd
  rw [List.nodup_cons] at hndpB
  obtain ⟨hpB, hndB⟩ := hndpB
  have hpA : p ∉ A.map Prod.fst := fun hmem => hdisj hmem (List.mem_cons_self _ _)
  have hBA : ∀ k ∈ B.map Prod.fst, k ∉ A.map Prod.fst :=
    fun k hkB hkA => hdisj hkA (List.mem_cons_of_mem _ hkB)
  have hlookA : ∀ kv ∈ A, lookupD (A ++ (p, y) :: B) kv.1 = some kv.2 := by
    intro kv hkv
    rw [lookupD_append]
    rw [lookupD_of_mem A kv.1 kv.2 hndA (by simpa using hkv)]
  have hlookp : lookupD (A ++ (p, y) :: B) p = some y := by
    rw [lookupD_append, (lookupD_eq_none A p).mpr hpA]
    simp [lookupD]
  have hlookB : ∀ kv ∈ B, lookupD (A ++ (p, y) :: B) kv.1 = some kv.2 := by
    intro kv hkv
    have hk1B : kv.1 ∈ B.map Prod.fst := List.mem_map.mpr ⟨kv, hkv, rfl⟩
    have hkp : kv.1 ≠ p := fun he => hpB (he ▸ hk1B)
    rw [lookupD_append, (lookupD_eq_none A kv.1).mpr (hBA kv.1 hk1B)]
    simp only [lookupD, if_neg hkp]
    exact lookupD_of_mem B kv.1 kv.2 hndB (by simpa using hkv)
  unfold mismatched
  have hfA : (A.filter fun kv => decide (lookupD (A ++ (p, y) :: B) kv.1 ≠ some kv.2)) = [] := by
    apply List.filter_eq_nil_iff.mpr
    intro kv hkv
    simp [hlookA kv hkv]
  have hfB : (B.filter fun kv => decide (lookupD (A ++ (p, y) :: B) kv.1 ≠ some kv.2)) = [] := by
    apply List.filter_eq_nil_iff.mpr
    intro kv hkv
    simp [hlookB kv hkv]
  have hfp : decide (lookupD (A ++ (p, y) :: B) p ≠ some x) = true := by
    rw [hlookp]
    simpa using fun he => hxy he.symm
  have hkeys : (A ++ (p, y) :: B).map Prod.fst = (A ++ (p, x) :: B).map Prod.fst := by
    simp
  have hf2 : ((A ++ (p, y) :: B).filter fun kv => (lookupD (A ++ (p, x) :: B) kv.1).isNone) = [] := by
    apply List.filter_eq_nil_iff.mpr
    intro kv hkv
    have hk1 : kv.1 ∈ (A ++ (p, x) :: B).map Prod.fst := by
      rw [← hkeys]
      exact List.mem_map.mpr ⟨kv, hkv, rfl⟩
    have : lookupD (A ++ (p, x) :: B) kv.1 ≠ none :=
      fun he => ((lookupD_eq_none _ _).mp he) hk1
    simpa [Option.isNone_iff_eq_none] using this
  rw [List.filter_append, List.filter_cons, hfA, hfB, hfp, hf2]
  simp

theorem mismatched_hash_modified (h : Content → Digest) (hinj : Function.Injective h)
    (pre post : List (String × FsNode)) (p : String) (c c' : Content)
    (hp : isHidden p = false) (hc : c ≠ c')
    (hnd : ((pre ++ (p, FsNode.file c) :: post).map Prod.fst).Nodup) :
    mismatched (hashDirectory h (some (pre ++ (p, FsNode.file c) :: post)))
               (hashDirectory h (some (pre ++ (p, FsNode.file c') :: post))) = [p] := by
  have hkeysnd :
      (((pre ++ (p, FsNode.file c) :: post).filterMap (hashEntry h)).map Prod.fst).Nodup :=
    (hashKeys_sublist h _).nodup hnd
  rw [hashDirectory_some, hashDirectory_some, List.filterMap_append, List.filterMap_append,
      List.filterMap_cons_some (hashEntry_file h p c hp),
      List.filterMap_cons_some (hashEntry_file h p c' hp)]
  rw [List.filterMap_append, List.filterMap_cons_some (hashEntry_file h p c hp)] at hkeysnd
  exact mismatched_single _ _ p (h c) (h c') hkeysnd (fun he => hc (hinj he))

theorem getByPath_finalize (db : List ExperimentRecord) (p mp : String) (now : Nat) :
    DatabaseManager.getExperimentByPath (DatabaseManager.finalizeExperiment db p mp now) p
      = (DatabaseManager.getExperimentByPath db p).map
          (fun e => { e with status := Status.COMPLETED, finalized_at := some now,
                             manifest_path := some mp }) := by
  induction db with
  | nil => rfl
  | cons r rest ih =>
    by_cases hb : r.path = p
    · simp [DatabaseManager.finalizeExperiment, DatabaseManager.getExperimentByPath,
            List.find?_cons, hb]
    · simpa [DatabaseManager.finalizeExperiment, DatabaseManager.getExperimentByPath,
             List.find?_cons, hb] using ih

theorem map_congr_fun {α β : Type _} (f g : α → β) (l : List α) (hfg : ∀ a, f a = g a) :
    l.map f = l.map g := by
  induction l with
  | nil => rfl
  | cons a rest ih => simp [hfg a, ih]

/-! Claim theorems. -/

/-- C1: evaluation of the code at the failing input.  The claim says that
invoking finalize on a COMPLETED experiment fails with AlreadyFinalized and
leaves the previously written manifest's bytes unchanged.  The source has no
status check in `immutable.finalizeExperiment`: on the COMPLETED experiment
at "/exp1" the command completes without error, replaces `manifest.json`
with a differently-timestamped manifest, and mutates the registry record. -/
theorem c1_refinalize_completed_not_rejected :
    (DatabaseManager.getExperimentByPath [c1Record] "/exp1").map (fun r => r.status)
      = some Status.COMPLETED
    ∧ (finalizeExperimentCmd (fun c => c) c1Env [c1Record] "/exp1" c1Disk).fatalError = false
    ∧ (finalizeExperimentCmd (fun c => c) c1Env [c1Record] "/exp1" c1Disk).disk.manifestFile
        ≠ some c1Manifest
    ∧ (finalizeExperimentCmd (fun c => c) c1Env [c1Record] "/exp1" c1Disk).db ≠ [c1Record] := by
  decide

/-- C2: evaluation of the code at the failing input.  The claim says that
once an experiment's status is COMPLETED no operation offered by the system
changes its `status`, `manifest_path`, or `finalized_at`.  Running the
finalize command (a system operation) on the COMPLETED experiment at "/exp2"
changes its `finalized_at` from 2 to the new DB clock reading 9. -/
theorem c2_completed_finalized_at_mutated :
    (DatabaseManager.getExperimentByPath [c2Record] "/exp2").map (fun r => r.status)
      = some Status.COMPLETED
    ∧ (DatabaseManager.getExperimentByPath [c2Record] "/exp2").map (fun r => r.finalized_at)
      = some (some 2)
    ∧ (DatabaseManager.getExperimentByPath
          (finalizeExperimentCmd (fun c => c) c2Env [c2Record] "/exp2" c2Disk).db "/exp2").map
        (fun r => r.finalized_at) = some (some 9) := by
  decide

/-- C3 counterexample: a directory whose only regular file lives one level
down (at relative path "sub/data.csv") yields an empty digest mapping — the
hasher does not recurse, so the mapping does not contain an entry for every
regular file at every depth. -/
theorem c3_nested_file_not_hashed :
    HasDeepFile [("sub", FsNode.dir [("data.csv", FsNode.file [49, 50])])]
      ["sub", "data.csv"] [49, 50]
    ∧ hashDirectory (fun c => c)
        (some [("sub", FsNode.dir [("data.csv", FsNode.file [49, 50])])]) = []
    ∧ lookupD (hashDirectory (fun c => c)
        (some [("sub", FsNode.dir [("data.csv", FsNode.file [49, 50])])])) "sub/data.csv"
      = none := by
  refine ⟨?_, rfl, rfl⟩
  exact HasDeepFile.there (List.mem_cons_self _ _) (by decide)
    (HasDeepFile.here (List.mem_cons_self _ _) (by decide))

/-- C3 (amended): the Content Hasher returns a mapping with an entry exactly
for every non-hidden regular file at the TOP LEVEL of the directory (keyed by
its name, with that file's digest); directories, symlinks and dot-prefixed
names contribute nothing, and a missing directory yields the empty mapping. -/
theorem c3_top_level_hashing (h : Content → Digest) (es : List (String × FsNode))
    (hnd : (es.map Prod.fst).Nodup) (k : String) (d : Digest) :
    (lookupD (hashDirectory h (some es)) k = some d ↔
      ∃ c, (k, FsNode.file c) ∈ es ∧ isHidden k = false ∧ d = h c)
    ∧ hashDirectory h none = [] := by
  constructor
  · rw [hashDirectory_some]
    constructor
    · intro hl
      obtain ⟨⟨n, node⟩, hin, hfe⟩ := List.mem_filterMap.mp (lookupD_mem _ _ _ hl)
      by_cases hh : isHidden n
      · simp [hashEntry, hh] at hfe
      · cases node with
        | file c =>
            rw [hashEntry_file h n c (by simpa using hh)] at hfe
            obtain ⟨hk, hd⟩ := Prod.mk.injEq .. ▸ Option.some.injEq .. ▸ hfe
            subst hk
            exact ⟨c, hin, by simpa using hh, hd.symm⟩
        | dir sub => simp [hashEntry, hh] at hfe
        | symlink t => simp [hashEntry, hh] at hfe
    · rintro ⟨c, hmem, hhid, rfl⟩
      apply lookupD_of_mem _ _ _ ((hashKeys_sublist h es).nodup hnd)
      exact List.mem_filterMap.mpr ⟨(k, FsNode.file c), hmem, hashEntry_file h k c hhid⟩
  · rfl

/-- C3 witness: the amended statement instantiated at a one-file directory. -/
theorem c3_top_level_hashing_witness :
    ((lookupD (hashDirectory (fun c => c) (some [("a.csv", FsNode.file [49])])) "a.csv"
        = some [49] ↔
      ∃ c, ("a.csv", FsNode.file c) ∈ [("a.csv", FsNode.file [49])]
        ∧ isHidden "a.csv" = false ∧ [49] = c)
    ∧ hashDirectory (fun c => c) none = []) :=
  c3_top_level_hashing (fun c => c) [("a.csv", FsNode.file [49])] (by decide) "a.csv" [49]

/-- C4: for a fixed directory state, the digest mapping is the same whatever
order the OS enumerates the entries in (the two runs see permuted listings
with the same distinct names), and each file's digest is exactly the hash of
that file's content. -/
theorem c4_hash_deterministic_order_independent (h : Content → Digest)
    (es₁ es₂ : List (String × FsNode)) (hperm : es₁.Perm es₂)
    (hnd : (es₁.map Prod.fst).Nodup) :
    (∀ k, lookupD (hashDirectory h (some es₁)) k = lookupD (hashDirectory h (some es₂)) k)
    ∧ (∀ name c, (name, FsNode.file c) ∈ es₁ → isHidden name = false →
        lookupD (hashDirectory h (some es₁)) name = some (h c)) := by
  have hperm' : (es₁.filterMap (hashEntry h)).Perm (es₂.filterMap (hashEntry h)) :=
    hperm.filterMap _
  have hnd1 : ((es₁.filterMap (hashEntry h)).map Prod.fst).Nodup :=
    (hashKeys_sublist h es₁).nodup hnd
  constructor
  · intro k
    rw [hashDirectory_some, hashDirectory_some]
    exact lookupD_perm _ _ hperm' hnd1 k
  · intro name c hmem hhid
    rw [hashDirectory_some]
    exact lookupD_of_mem _ _ _ hnd1
      (List.mem_filterMap.mpr ⟨(name, FsNode.file c), hmem, hashEntry_file h name c hhid⟩)

/-- C4 witness: the theorem instantiated on a two-file directory enumerated
in the two possible orders. -/
theorem c4_hash_deterministic_order_independent_witness :
    (∀ k, lookupD (hashDirectory (fun c => c)
          (some [("a", FsNode.file [1]), ("b", FsNode.file [2])])) k
        = lookupD (hashDirectory (fun c => c)
          (some [("b", FsNode.file [2]), ("a", FsNode.file [1])])) k)
    ∧ (∀ name c,
        (name, FsNode.file c) ∈ [("a", FsNode.file [1]), ("b", FsNode.file [2])] →
        isHidden name = false →
        lookupD (hashDirectory (fun c => c)
          (some [("a", FsNode.file [1]), ("b", FsNode.file [2])])) name = some c) :=
  c4_hash_deterministic_order_independent (fun c => c)
    [("a", FsNode.file [1]), ("b", FsNode.file [2])]
    [("b", FsNode.file [2]), ("a", FsNode.file [1])]
    (List.Perm.swap ("b", FsNode.file [2]) ("a", FsNode.file [1]) [])
    (by decide)

/-- C5: when GPG signing fails, the finalize command aborts fatally without
touching the registry (so the experiment's `status`, `finalized_at` and
`manifest_path` all remain as they were), while the manifest just written and
the code snapshot remain on disk. -/
theorem c5_signing_failure_aborts (h : Content → Digest) (env : FinalizeEnv)
    (db : List ExperimentRecord) (rootPath : String) (disk : Disk)
    (hsign : env.signOk = false) :
    (finalizeExperimentCmd h env db rootPath disk).db = db
    ∧ (finalizeExperimentCmd h env db rootPath disk).fatalError = true
    ∧ (finalizeExperimentCmd h env db rootPath disk).disk.manifestFile
        = some (buildManifest h env disk)
    ∧ (finalizeExperimentCmd h env db rootPath disk).disk.codeSnapshot
        = some env.codeFiles := by
  simp [finalizeExperimentCmd, hsign]

/-- C5 witness: the theorem instantiated at a concrete failing-signature
environment. -/
theorem c5_signing_failure_aborts_witness :
    (finalizeExperimentCmd (fun c => c) w5Env [c2Record] "/exp2" w5Disk).db = [c2Record]
    ∧ (finalizeExperimentCmd (fun c => c) w5Env [c2Record] "/exp2" w5Disk).fatalError = true
    ∧ (finalizeExperimentCmd (fun c => c) w5Env [c2Record] "/exp2" w5Disk).disk.manifestFile
        = some (buildManifest (fun c => c) w5Env w5Disk)
    ∧ (finalizeExperimentCmd (fun c => c) w5Env [c2Record] "/exp2" w5Disk).disk.codeSnapshot
        = some w5Env.codeFiles :=
  c5_signing_failure_aborts (fun c => c) w5Env [c2Record] "/exp2" w5Disk rfl

/-- C6: when the timestamping step fails, finalize still completes without a
fatal error: the experiment's status becomes COMPLETED, the manifest and the
detached signature are on disk, the timestamp token is absent, and the
non-fatal warning is reported. -/
theorem c6_timestamp_failure_nonfatal (h : Content → Digest) (env : FinalizeEnv)
    (db : List ExperimentRecord) (rootPath : String) (disk : Disk) (e : ExperimentRecord)
    (hsign : env.signOk = true) (hts : env.tsOk = false)
    (hfind : DatabaseManager.getExperimentByPath db rootPath = some e)
    (htsr : disk.tsrFile = none) :
    (finalizeExperimentCmd h env db rootPath disk).fatalError = false
    ∧ (finalizeExperimentCmd h env db rootPath disk).warning = true
    ∧ (finalizeExperimentCmd h env db rootPath disk).disk.manifestFile
        = some (buildManifest h env disk)
    ∧ (finalizeExperimentCmd h env db rootPath disk).disk.signatureFile
        = some (buildManifest h env disk)
    ∧ (finalizeExperimentCmd h env db rootPath disk).disk.tsrFile = none
    ∧ (DatabaseManager.getExperimentByPath
          (finalizeExperimentCmd h env db rootPath disk).db rootPath).map (fun r => r.status)
        = some Status.COMPLETED := by
  refine ⟨?_, ?_, ?_, ?_, ?_, ?_⟩ <;>
    simp [finalizeExperimentCmd, hsign, hts, htsr, getByPath_finalize, hfind]

/-- C6 witness: the theorem instantiated at a concrete experiment whose
timestamp authority is unreachable. -/
theorem c6_timestamp_failure_nonfatal_witness :
    (finalizeExperimentCmd (fun c => c) w6Env [w6Record] "/exp6" w6Disk).fatalError = false
    ∧ (finalizeExperimentCmd (fun c => c) w6Env [w6Record] "/exp6" w6Disk).warning = true
    ∧ (finalizeExperimentCmd (fun c => c) w6Env [w6Record] "/exp6" w6Disk).disk.manifestFile
        = some (buildManifest (fun c => c) w6Env w6Disk)
    ∧ (finalizeExperimentCmd (fun c => c) w6Env [w6Record] "/exp6" w6Disk).disk.signatureFile
        = some (buildManifest (fun c => c) w6Env w6Disk)
    ∧ (finalizeExperimentCmd (fun c => c) w6Env [w6Record] "/exp6" w6Disk).disk.tsrFile = none
    ∧ (DatabaseManager.getExperimentByPath
          (finalizeExperimentCmd (fun c => c) w6Env [w6Record] "/exp6" w6Disk).db "/exp6").map
        (fun r => r.status) = some Status.COMPLETED :=
  c6_timestamp_failure_nonfatal (fun c => c) w6Env [w6Record] "/exp6" w6Disk w6Record
    rfl rfl (by decide) rfl

/-- C7 counterexample: a location that carries filesystem evidence of prior
scaffolding (an `output` folder) but is not registered.  Creation is rejected
as a duplicate location, but afterwards the registry contains ZERO records
for that location, not exactly one as the claim states. -/
theorem c7_evidence_only_zero_records :
    (createSandbox [] "id1" "exp1" "/exp1"
        { hasOutput := true, hasDevcontainer := false } 0).outcome
      = CreateOutcome.duplicateLocation
    ∧ ((createSandbox [] "id1" "exp1" "/exp1"
        { hasOutput := true, hasDevcontainer := false } 0).db.filter
          (fun r => r.path == "/exp1")).length = 0
    ∧ ((createSandbox [] "id1" "exp1" "/exp1"
        { hasOutput := true, hasDevcontainer := false } 0).db.filter
          (fun r => r.path == "/exp1")).length ≠ 1 := by
  decide

/-- C7 (amended): whenever the location is already registered or already
contains evidence of prior scaffolding, creation fails as a duplicate
location with no record inserted and no filesystem side effect, leaving the
registry exactly as it was (hence exactly one record for the location when
exactly one was registered, and zero when only filesystem evidence exists). -/
theorem c7_duplicate_location_rejected (db : List ExperimentRecord)
    (id name projectPath : String) (loc : Location) (now : Nat)
    (hdup : (loc.hasOutput || loc.hasDevcontainer) = true
        ∨ (DatabaseManager.getExperimentByPath db projectPath).isSome = true) :
    (createSandbox db id name projectPath loc now).outcome = CreateOutcome.duplicateLocation
    ∧ (createSandbox db id name projectPath loc now).db = db
    ∧ (createSandbox db id name projectPath loc now).sideEffects = false := by
  unfold createSandbox
  rcases hdup with hfs | hreg
  · simp [hfs]
  · by_cases hfs : (loc.hasOutput || loc.hasDevcontainer) = true
    · simp [hfs]
    · have hfs' : (loc.hasOutput || loc.hasDevcontainer) = false := by
        simpa using hfs
      cases hx : DatabaseManager.getExperimentByPath db projectPath with
      | none => rw [hx] at hreg; simp at hreg
      | some e => simp [hfs', hx]

/-- C7 witness: the amended statement instantiated at a registered location
holding exactly one record. -/
theorem c7_duplicate_location_rejected_witness :
    (createSandbox [w7Record] "id2" "exp1" "/exp1"
        { hasOutput := false, hasDevcontainer := false } 5).outcome
      = CreateOutcome.duplicateLocation
    ∧ (createSandbox [w7Record] "id2" "exp1" "/exp1"
        { hasOutput := false, hasDevcontainer := false } 5).db = [w7Record]
    ∧ (createSandbox [w7Record] "id2" "exp1" "/exp1"
        { hasOutput := false, hasDevcontainer := false } 5).sideEffects = false :=
  c7_duplicate_location_rejected [w7Record] "id2" "exp1" "/exp1"
    { hasOutput := false, hasDevcontainer := false } 5 (Or.inr (by decide))

/-- C8 counterexample: the manifest written by finalize does not serialize
with the field list claimed (`timestamp`, `input_hashes`, `output_hashes`,
`environment_description`) — there is no `environment_description` field at
all. -/
theorem c8_field_names_differ_from_claim :
    (manifestFields w8Manifest).map Prod.fst
      ≠ ["timestamp", "input_hashes", "output_hashes", "environment_description"]
    ∧ "environment_description" ∉ (manifestFields w8Manifest).map Prod.fst := by
  decide

/-- C8 (amended): every manifest produced by finalize serializes with exactly
the stable field names `timestamp`, `input_hashes` (a path-to-digest
mapping), `output_hashes` (a path-to-digest mapping), `system_info` and
`pip_freeze`. -/
theorem c8_manifest_field_names (m : Manifest) :
    (manifestFields m).map Prod.fst
      = ["timestamp", "input_hashes", "output_hashes", "system_info", "pip_freeze"] := rfl

/-- C9 counterexample: a COMPLETED experiment whose only input file is the
NESTED regular file "sub/data.csv" (content byte 49 before, 50 after
modification — a one-byte change).  Because the hasher does not recurse, the
stored manifest's digest mappings are empty and recomputing them after the
modification yields the same empty mappings, so `verify` returns `Valid`,
not `ContentMismatch` naming the modified file — refuting the claim for
files below the top level. -/
theorem c9_nested_modification_undetected :
    HasDeepFile [("sub", FsNode.dir [("data.csv", FsNode.file [49])])]
      ["sub", "data.csv"] [49]
    ∧ HasDeepFile [("sub", FsNode.dir [("data.csv", FsNode.file [50])])]
      ["sub", "data.csv"] [50]
    ∧ ([49] : Content) ≠ [50]
    ∧ w9nManifest.input_hashes
        = hashDirectory (fun c => c)
            (some [("sub", FsNode.dir [("data.csv", FsNode.file [49])])])
    ∧ w9nManifest.output_hashes = hashDirectory (fun c => c) (some [])
    ∧ verifyIntegrity (fun c => c) w9nManifest w9nDisk = VerifyResult.Valid := by
  refine ⟨?_, ?_, by decide, rfl, rfl, by decide⟩
  · exact HasDeepFile.there (List.mem_cons_self _ _) (by decide)
      (HasDeepFile.here (List.mem_cons_self _ _) (by decide))
  · exact HasDeepFile.there (List.mem_cons_self _ _) (by decide)
      (HasDeepFile.here (List.mem_cons_self _ _) (by decide))

/-- C9 (amended, spec-modelled verifier): for a finalized experiment whose
manifest matches its directories, modifying the content of one non-hidden
regular file at the TOP LEVEL of the input or the output directory
(collision-free digests) makes `verify` return `ContentMismatch` naming
exactly that file's path, and the dashboard-level verify operation leaves
the registry unchanged; files nested in subdirectories are outside the
manifest and their modification is not detected. -/
theorem c9_single_file_modification_detected (h : Content → Digest)
    (hinj : Function.Injective h) (db : List ExperimentRecord) (m : Manifest)
    (pre post other : List (String × FsNode)) (p : String) (c c' : Content)
    (side : Bool) (disk1 : Disk)
    (hp : isHidden p = false) (hc : c ≠ c')
    (hnd1 : ((pre ++ (p, FsNode.file c) :: post).map Prod.fst).Nodup)
    (hnd2 : (other.map Prod.fst).Nodup)
    (hmi : m.input_hashes
      = hashDirectory h (if side then some (pre ++ (p, FsNode.file c) :: post) else some other))
    (hmo : m.output_hashes
      = hashDirectory h (if side then some other else some (pre ++ (p, FsNode.file c) :: post)))
    (hdi : disk1.inputDir
      = if side then some (pre ++ (p, FsNode.file c') :: post) else some other)
    (hdo : disk1.outputDir
      = if side then some other else some (pre ++ (p, FsNode.file c') :: post)) :
    verifyIntegrity h m disk1 = VerifyResult.ContentMismatch [p]
    ∧ (verifyCmd h db m disk1).2 = db := by
  have hself : mismatched (hashDirectory h (some other)) (hashDirectory h (some other)) = [] := by
    rw [hashDirectory_some]
    exact mismatched_self _ ((hashKeys_sublist h other).nodup hnd2)
  have hmod := mismatched_hash_modified h hinj pre post p c c' hp hc hnd1
  refine ⟨?_, rfl⟩
  unfold verifyIntegrity
  cases side with
  | true =>
      simp only [if_true] at hmi hmo hdi hdo
      rw [hmi, hmo, hdi, hdo, hmod, hself]
      simp
  | false =>
      simp at hmi hmo hdi hdo
      rw [hmi, hmo, hdi, hdo, hmod, hself]
      simp

/-- C9 witness: the theorem instantiated at an experiment whose single input
file "a.csv" was modified from byte 49 to byte 50 after finalization. -/
theorem c9_single_file_modification_detected_witness :
    verifyIntegrity (fun c => c) w9Manifest w9Disk = VerifyResult.ContentMismatch ["a.csv"]
    ∧ (verifyCmd (fun c => c) [c1Record] w9Manifest w9Disk).2 = [c1Record] :=
  c9_single_file_modification_detected (fun c => c) (fun _ _ hab => hab) [c1Record]
    w9Manifest [] [] [] "a.csv" [49] [50] true w9Disk
    rfl (by decide) (by decide) (by decide) rfl rfl rfl rfl

/-- C10: opening an experiment from the dashboard updates exactly
`last_opened_at` (to the opening time) on the records at that path, sets
`status` to IN_PROGRESS only when the looked-up experiment's status is not
COMPLETED (so a COMPLETED experiment keeps its status), and changes no other
field of any record — in particular `finalized_at` and `manifest_path` are
untouched. -/
theorem c10_open_folder_frame (db : List ExperimentRecord) (p : String)
    (statusNow lastNow : Nat) (e : ExperimentRecord)
    (hfind : DatabaseManager.getExperimentByPath db p = some e) :
    openFolderCmd db p statusNow lastNow
      = db.map (fun r =>
          if r.path == p then
            { r with last_opened_at := some lastNow,
                     status := if e.status = Status.COMPLETED then r.status
                               else Status.IN_PROGRESS }
          else r) := by
  unfold openFolderCmd
  rw [hfind]
  show (if e.status = Status.COMPLETED then DatabaseManager.updateLastOpened db p lastNow
        else DatabaseManager.updateLastOpened
          (DatabaseManager.updateExperimentStatus db p Status.IN_PROGRESS statusNow)
          p lastNow) = _
  by_cases hcomp : e.status = Status.COMPLETED
  · rw [if_pos hcomp]
    unfold DatabaseManager.updateLastOpened
    apply map_congr_fun
    intro r
    by_cases hb : (r.path == p) = true
    · simp [hb, hcomp]
    · simp [hb]
  · rw [if_neg hcomp]
    unfold DatabaseManager.updateLastOpened DatabaseManager.updateExperimentStatus
    rw [List.map_map]
    apply map_congr_fun
    intro r
    by_cases hb : (r.path == p) = true
    · simp [Function.comp, hb, hcomp]
    · simp [Function.comp, hb]

/-- C10 witness: the theorem instantiated at a CREATED experiment opened from
the dashboard. -/
theorem c10_open_folder_frame_witness :
    openFolderCmd [w10Record] "/exp10" 3 4
      = [w10Record].map (fun r =>
          if r.path == "/exp10" then
            { r with last_opened_at := some 4,
                     status := if w10Record.status = Status.COMPLETED then r.status
                               else Status.IN_PROGRESS }
          else r) :=
  c10_open_folder_frame [w10Record] "/exp10" 3 4 w10Record (by decide)

end Sandbox
